import Mathlib

/-!
Verification of the sigfox-at-parser AT command manager (src/src/at.c,
src/inc/at.h) against its natural-language specification.

The C module is shallowly embedded: the mutable singleton `at_ctx` becomes an
explicit `Ctx` value threaded through every operation, machine integers become
`Nat`/`Int` with explicit wrap-around where the C code can overflow, C strings
become `List Char` (NUL-terminated reads are modelled with `cstrOf`), and the
transport collaborator (`AT_HW_API_write`) is modelled as an always-successful
sink whose writes are recorded in an event trace.  Command descriptors live in
a pointer environment `env : Nat → Cmd`; registry slots hold `Option Nat`
pointer values, so pointer comparison is `Option Nat` equality and
dereferencing a null pointer is an explicit, visible step.

Callbacks (the function pointers of `AT_command_t`) are modelled as Lean
functions from the flag state to a status, an error code and a list of
`CbEffect`s; the effect algebra covers exactly what a callback can reach
through the module's interface: setting the echo/verbose/quiet mode bits (the
built-in E/V/Q commands do this) and sending a reply through `AT_send_reply`.
-/

set_option maxRecDepth 20000

namespace ATSpec

/-- AT driver error codes, from `AT_status_t` in at.h (same order, so that
`toNat` below gives the numeric value printed by the non-verbose status
line). -/
inductive AT_status where
  | SUCCESS
  | ERROR_INTERNAL_COMMAND_PARSING
  | ERROR_INTERNAL_COMMAND_NOT_FOUND
  | ERROR_INTERNAL_COMMAND_MARKER_NOT_DEFINED
  | ERROR_INTERNAL_COMMAND_EXECUTION_NOT_DEFINED
  | ERROR_INTERNAL_COMMAND_WRITE_NOT_DEFINED
  | ERROR_INTERNAL_COMMAND_READ_NOT_DEFINED
  | ERROR_EXTERNAL_COMMAND_BAD_PARAMETER_NUMBER
  | ERROR_EXTERNAL_COMMAND_BAD_PARAMETER_PARSING
  | ERROR_EXTERNAL_COMMAND_BAD_PARAMETER_VALUE
  | ERROR_EXTERNAL_COMMAND_CORE_ERROR
  | ERROR_NULL_PARAMETER
  | ERROR_WRITE_CALLBACK_WITHOUT_PARAMETER
  | ERROR_COMMAND_TYPE
  | ERROR_COMMAND_ALREADY_REGISTERED
  | ERROR_COMMANDS_LIST_FULL
  | ERROR_COMMAND_NOT_REGISTERED
  | ERROR_TX_BUFFER_SIZE
  | ERROR_AT_HW_API
  deriving DecidableEq, Repr

/-- Numeric value of the C enum (C enumerators start at 0 and increase). -/
def AT_status.toNat : AT_status → Nat
  | .SUCCESS => 0
  | .ERROR_INTERNAL_COMMAND_PARSING => 1
  | .ERROR_INTERNAL_COMMAND_NOT_FOUND => 2
  | .ERROR_INTERNAL_COMMAND_MARKER_NOT_DEFINED => 3
  | .ERROR_INTERNAL_COMMAND_EXECUTION_NOT_DEFINED => 4
  | .ERROR_INTERNAL_COMMAND_WRITE_NOT_DEFINED => 5
  | .ERROR_INTERNAL_COMMAND_READ_NOT_DEFINED => 6
  | .ERROR_EXTERNAL_COMMAND_BAD_PARAMETER_NUMBER => 7
  | .ERROR_EXTERNAL_COMMAND_BAD_PARAMETER_PARSING => 8
  | .ERROR_EXTERNAL_COMMAND_BAD_PARAMETER_VALUE => 9
  | .ERROR_EXTERNAL_COMMAND_CORE_ERROR => 10
  | .ERROR_NULL_PARAMETER => 11
  | .ERROR_WRITE_CALLBACK_WITHOUT_PARAMETER => 12
  | .ERROR_COMMAND_TYPE => 13
  | .ERROR_COMMAND_ALREADY_REGISTERED => 14
  | .ERROR_COMMANDS_LIST_FULL => 15
  | .ERROR_COMMAND_NOT_REGISTERED => 16
  | .ERROR_TX_BUFFER_SIZE => 17
  | .ERROR_AT_HW_API => 18

/-- The C `AT_BUFFER_SIZE` in at.c. -/
def AT_BUFFER_SIZE : Nat := 128

/-- The C `AT_COMMAND_LIST_SIZE` in at.c. -/
def AT_COMMAND_LIST_SIZE : Nat := 64

/-- The C `AT_COMMAND_TYPE_LAST` in at.h; command kinds are 0 = Basic,
1 = Extended, 2 = Debug. -/
def AT_COMMAND_TYPE_LAST : Nat := 3

/-- Observable interaction of one processing step with the outside world:
either an actual transport write (`AT_HW_API_write` call, carrying the bytes),
or the abstract fact that `_print_command_status` emitted the terminal status
line (whose bytes, if any, appear as separate `write` events). -/
inductive Event where
  | write (bytes : List Char)
  | statusLine (st : AT_status) (code : Int)
  deriving DecidableEq, Repr

/-- Flag bitfield `AT_flags_t` of at.c; each field is a one-bit field of a
`uint8_t`, so writes store the value's low-order bit. -/
structure Flags where
  process : Nat
  pending : Nat
  quiet : Nat
  verbose : Nat
  echo : Nat
  deriving DecidableEq, Repr

/-- What a command callback can do through the module interface: mutate the
persistent mode bits (as the built-in E/V/Q callbacks do; a one-bit bitfield
write keeps `v % 2`) or send a reply via `AT_send_reply` (optionally naming a
descriptor pointer, else the current command is used). -/
inductive CbEffect where
  | setEcho (v : Nat)
  | setVerbose (v : Nat)
  | setQuiet (v : Nat)
  | sendReply (cmd : Option Nat) (text : List Char)

/-- Result of an execution/read callback: status, `*error_code` written (0 if
the callback never writes it), and the interface effects it performed. -/
abbrev CbResult := AT_status × Int × List CbEffect

/-- The C `AT_command_t` of at.h.  `syn` is the C `syntax` field (a NUL-free string),
`ty` the `type` field as the C enum's numeric value.  Help strings the code
prints are kept as plain strings (descriptors registered for help printing
carry non-null help text; `_print_line(NULL)` would be undefined in C). -/
structure Cmd where
  syn : List Char
  ty : Nat
  help : List Char
  execution_callback : Option (Flags → CbResult)
  execution_help : List Char
  read_callback : Option (Flags → CbResult)
  read_help : List Char
  write_callback : Option (Nat → List (Option (List Char)) → Flags → CbResult)
  write_arguments : Option (List Char)
  write_help : List Char
  enum_to_str_callback : Option (Int → List Char)

/-- The mutable context `AT_context_t` of at.c, plus the fixed descriptor
memory `env` (pointer id ↦ descriptor) and whether a process callback was
configured at init. -/
@[ext]
structure Ctx where
  env : Nat → Cmd
  process_cb : Bool
  flags : Flags
  rx_buffer : List Char
  rx_buffer_size : Nat
  current_command : Option Nat
  commands_list : List (Option Nat)
  commands_count : List Nat

/-- Bytes of a C string up to (excluding) the first NUL: the portion `strlen`
and string reads observe. -/
def cstrOf (l : List Char) : List Char := l.takeWhile (fun c => c ≠ '\x00')

/-- The C `_rx_irq_callback` of at.c: ingest one received byte.  Returns the new
context and whether the process notification callback was invoked. -/
def rx_irq_callback (data : Char) (ctx : Ctx) : Ctx × Bool :=
  if data = '\x00' ∨ ctx.flags.pending = 1 then (ctx, false)
  else if data = '\r' then
    ({ ctx with flags := { ctx.flags with process := 1, pending := 1 } }, ctx.process_cb)
  else
    ({ ctx with
        rx_buffer := ctx.rx_buffer.set ctx.rx_buffer_size data,
        rx_buffer_size := (ctx.rx_buffer_size + 1) % AT_BUFFER_SIZE }, false)

/-- Digit accumulation for the `%d` conversion of `sscanf`. -/
def scanDigitsAux : List Char → Nat → Nat × List Char
  | [], acc => (acc, [])
  | c :: rest, acc =>
    if c.isDigit then scanDigitsAux rest (acc * 10 + (c.toNat - 48)) else (acc, c :: rest)

/-- Reads a non-empty digit run; `none` if the first character is no digit. -/
def scanDigits : List Char → Option (Nat × List Char)
  | [] => none
  | c :: rest =>
    if c.isDigit then some (scanDigitsAux rest (c.toNat - 48)) else none

/-- Leading whitespace skipped by `sscanf` conversions. -/
def skipSpaces (l : List Char) : List Char :=
  l.dropWhile (fun c => c = ' ' ∨ c = '\t' ∨ c = '\n' ∨ c = '\r' ∨ c = '\x0B' ∨ c = '\x0C')

/-- The C `sscanf(s, "%d", &v)` as used by `_parse_bit`: optional sign and a digit
run; trailing characters are ignored; `none` models a 0 return (no match). -/
def sscanf_d (s : List Char) : Option Int :=
  match skipSpaces s with
  | '-' :: rest => (scanDigits rest).map (fun p => -(p.1 : Int))
  | '+' :: rest => (scanDigits rest).map (fun p => (p.1 : Int))
  | t => (scanDigits t).map (fun p => (p.1 : Int))

/-- The C `_parse_bit` of at.c.  On success yields the value of the local `uint8_t`
variable `enable`, i.e. the parsed `int` cast to `uint8_t` (reduction modulo
2^8).  A null `argv[0]` would be undefined behaviour in `sscanf`; it is
modelled as a failed parse. -/
def parse_bit (argc : Nat) (argv : List (Option (List Char))) : Except AT_status Nat :=
  if argc ≠ 1 then .error .ERROR_EXTERNAL_COMMAND_BAD_PARAMETER_NUMBER
  else
    match argv.headD none with
    | none => .error .ERROR_EXTERNAL_COMMAND_BAD_PARAMETER_PARSING
    | some s =>
      match sscanf_d s with
      | none => .error .ERROR_EXTERNAL_COMMAND_BAD_PARAMETER_PARSING
      | some n =>
        if n > 1 then .error .ERROR_EXTERNAL_COMMAND_BAD_PARAMETER_VALUE
        else .ok ((n % (256 : Int)).toNat)

/-- The C `_echo_execution_callback`: resets the error code and disables echo. -/
def echo_execution_callback : Flags → CbResult :=
  fun _ => (.SUCCESS, 0, [.setEcho 0])

/-- The C `_echo_write_callback`: parses the single bit argument and stores it in
the one-bit echo field. -/
def echo_write_callback : Nat → List (Option (List Char)) → Flags → CbResult :=
  fun argc argv _ =>
    match parse_bit argc argv with
    | .error st => (st, 0, [])
    | .ok enable => (.SUCCESS, 0, [.setEcho enable])

/-- The C `_verbose_execution_callback`. -/
def verbose_execution_callback : Flags → CbResult :=
  fun _ => (.SUCCESS, 0, [.setVerbose 0])

/-- The C `_verbose_write_callback`. -/
def verbose_write_callback : Nat → List (Option (List Char)) → Flags → CbResult :=
  fun argc argv _ =>
    match parse_bit argc argv with
    | .error st => (st, 0, [])
    | .ok enable => (.SUCCESS, 0, [.setVerbose enable])

/-- The C `_quiet_execution_callback`. -/
def quiet_execution_callback : Flags → CbResult :=
  fun _ => (.SUCCESS, 0, [.setQuiet 0])

/-- The C `_quiet_write_callback`. -/
def quiet_write_callback : Nat → List (Option (List Char)) → Flags → CbResult :=
  fun argc argv _ =>
    match parse_bit argc argv with
    | .error st => (st, 0, [])
    | .ok enable => (.SUCCESS, 0, [.setQuiet enable])

/-- The C `AT_COMMAND_ECHO` descriptor of at.c. -/
def AT_COMMAND_ECHO : Cmd where
  syn := ['E']
  ty := 0
  help := "Interface echo control".data
  execution_callback := some echo_execution_callback
  execution_help := "Disable echo".data
  read_callback := none
  read_help := []
  write_callback := some echo_write_callback
  write_arguments := some "<enable>".data
  write_help := "Enable (1) or disable (0) echo".data
  enum_to_str_callback := none

/-- The C `AT_COMMAND_VERBOSE` descriptor of at.c. -/
def AT_COMMAND_VERBOSE : Cmd where
  syn := ['V']
  ty := 0
  help := "Interface verbosity level".data
  execution_callback := some verbose_execution_callback
  execution_help := "Disable verbose mode".data
  read_callback := none
  read_help := []
  write_callback := some verbose_write_callback
  write_arguments := some "<enable>".data
  write_help := "Enable (1) or disable (0) verbose mode".data
  enum_to_str_callback := none

/-- The C `AT_COMMAND_QUIET` descriptor of at.c. -/
def AT_COMMAND_QUIET : Cmd where
  syn := ['Q']
  ty := 0
  help := "Interface quiet mode control".data
  execution_callback := some quiet_execution_callback
  execution_help := "Disable quiet mode".data
  read_callback := none
  read_help := []
  write_callback := some quiet_write_callback
  write_arguments := some "<enable>".data
  write_help := "Enable (1) or disable (0) quiet mode".data
  enum_to_str_callback := none

/-- The C `_print_tab` of at.c: under the quiet flag (or for an empty buffer)
nothing reaches the transport; otherwise the bytes go to `AT_HW_API_write`.
The transport collaborator is external and modelled as always succeeding. -/
def print_tab (ctx : Ctx) (tab : List Char) (tab_size : Nat) : AT_status × List Event :=
  if ctx.flags.quiet ≠ 0 ∨ tab_size = 0 then (.SUCCESS, [])
  else (.SUCCESS, [.write (tab.take tab_size)])

/-- The C `_print` of at.c: write `strlen(text)` bytes. -/
def print_str (ctx : Ctx) (text : List Char) : AT_status × List Event :=
  print_tab ctx text text.length

/-- The C `_end_line` of at.c: write the `"\r\n"` reply terminator. -/
def end_line (ctx : Ctx) : AT_status × List Event :=
  print_tab ctx ['\r', '\n'] 2

/-- The C `_print_line` of at.c: text followed by the terminator. -/
def print_line (ctx : Ctx) (line : List Char) : AT_status × List Event :=
  let p := print_str ctx line
  if p.1 ≠ .SUCCESS then p
  else
    let e := end_line ctx
    (e.1, p.2 ++ e.2)

/-- Decimal rendering used for `snprintf("%d", ...)` on a `Nat`. -/
def natDec (n : Nat) : List Char := (Nat.repr n).data

/-- Decimal rendering used for `snprintf("%ld", ...)` on the error code. -/
def intDec (i : Int) : List Char := (Int.repr i).data

/-- One uppercase hexadecimal digit. -/
def hexDigit (n : Nat) : Char :=
  if n < 10 then Char.ofNat (48 + n) else Char.ofNat (55 + n)

/-- Uppercase hexadecimal rendering (no leading zeroes beyond the first
digit). -/
def toHexUpper (n : Nat) : List Char :=
  if h : n < 16 then [hexDigit n]
  else toHexUpper (n / 16) ++ [hexDigit (n % 16)]
decreasing_by
  exact Nat.div_lt_self (Nat.lt_of_lt_of_le (by norm_num) (Nat.le_of_not_lt h)) (by norm_num)

/-- The C `snprintf("0x%02X", (unsigned int) code)`: the error code cast to
`unsigned int`, in uppercase hex, zero-padded to at least two digits. -/
def hex02 (code : Int) : List Char :=
  let s := toHexUpper ((code % (4294967296 : Int)).toNat)
  List.replicate (2 - s.length) '0' ++ s

/-- Body of the `switch (at_status)` in `_print_command_status`: the text
placed in `tx_buffer` for a non-`AT_SUCCESS` status under verbose mode.  For
`CORE_ERROR` with a null current command the C code would dereference a null
pointer; that unreachable-in-context case is modelled as the no-translator
branch. -/
def status_text (ctx : Ctx) (at_status : AT_status) (error_code : Int) : List Char :=
  match at_status with
  | .ERROR_INTERNAL_COMMAND_PARSING => "COMMAND_PARSING".data
  | .ERROR_INTERNAL_COMMAND_NOT_FOUND => "COMMAND_NOT_FOUND".data
  | .ERROR_INTERNAL_COMMAND_MARKER_NOT_DEFINED => "COMMAND_MARKER_NOT_DEFINED".data
  | .ERROR_INTERNAL_COMMAND_EXECUTION_NOT_DEFINED => "COMMAND_EXECUTION_NOT_DEFINED".data
  | .ERROR_INTERNAL_COMMAND_WRITE_NOT_DEFINED => "COMMAND_WRITE_NOT_DEFINED".data
  | .ERROR_INTERNAL_COMMAND_READ_NOT_DEFINED => "COMMAND_READ_NOT_DEFINED".data
  | .ERROR_EXTERNAL_COMMAND_BAD_PARAMETER_NUMBER =>
      "COMMAND_BAD_PARAMETER_NUMBER:".data ++ intDec error_code
  | .ERROR_EXTERNAL_COMMAND_BAD_PARAMETER_PARSING =>
      "COMMAND_BAD_PARAMETER_PARSING:".data ++ intDec error_code
  | .ERROR_EXTERNAL_COMMAND_BAD_PARAMETER_VALUE =>
      "COMMAND_BAD_PARAMETER_VALUE:".data ++ intDec error_code
  | .ERROR_EXTERNAL_COMMAND_CORE_ERROR =>
      match ctx.current_command with
      | some cid =>
        match (ctx.env cid).enum_to_str_callback with
        | some f => "COMMAND_CORE_ERROR:".data ++ f error_code
        | none => "COMMAND_CORE_ERROR:0x".data ++ hex02 error_code
      | none => "COMMAND_CORE_ERROR:0x".data ++ hex02 error_code
  | st => "UNKNOWN:".data ++ natDec st.toNat

/-- The C `_print_command_status` of at.c.  The leading `statusLine` event records
that the formatter emitted the terminal status line; the bytes it actually
writes (suppressed under quiet) follow as `write` events. -/
def print_command_status (ctx : Ctx) (at_status : AT_status) (error_code : Int) :
    List Event :=
  if ctx.flags.verbose = 0 then
    let tx := natDec at_status.toNat
    .statusLine at_status error_code ::
      ((print_tab ctx tx tx.length).2 ++ (end_line ctx).2)
  else if at_status = .SUCCESS then
    .statusLine at_status error_code ::
      ((print_str ctx "OK".data).2 ++ (print_tab ctx [] 0).2 ++ (end_line ctx).2)
  else
    let tx := status_text ctx at_status error_code
    .statusLine at_status error_code ::
      ((print_str ctx "ERROR:".data).2 ++ (print_tab ctx tx tx.length).2 ++ (end_line ctx).2)

/-- The C `AT_COMMAND_HEADER` table of at.c: kind marker characters (Basic has the
NUL marker, so printing it writes nothing). -/
def AT_COMMAND_HEADER : List Char := ['\x00', '$', '!']

/-- The C `_print_command_header` of at.c. -/
def print_command_header (ctx : Ctx) (ty : Nat) : AT_status × List Event :=
  if ty ≥ AT_COMMAND_TYPE_LAST then (.ERROR_COMMAND_TYPE, [])
  else print_str ctx (cstrOf [AT_COMMAND_HEADER.getD ty '\x00'])

/-- The C `AT_COMMAND_HEADER_HELP` string of at.c. -/
def AT_COMMAND_HEADER_HELP : List Char := "        -> ".data

/-- One registered descriptor's section of `_print_help`: summary line, then
one full-invocation line per defined call form.  The per-call status checks of
the C code never fire here because the modelled transport always succeeds and
this is only invoked with a valid kind. -/
def help_entry (ctx : Ctx) (ty : Nat) (c : Cmd) : List Event :=
  (print_str ctx "    ".data).2 ++ (print_str ctx c.syn).2 ++
    (print_str ctx " : ".data).2 ++ (print_line ctx c.help).2 ++
  (match c.execution_callback with
   | none => []
   | some _ =>
     (print_str ctx AT_COMMAND_HEADER_HELP).2 ++ (print_str ctx "AT".data).2 ++
       (print_command_header ctx ty).2 ++ (print_str ctx c.syn).2 ++
       (print_str ctx " : ".data).2 ++ (print_line ctx c.execution_help).2) ++
  (match c.write_callback with
   | none => []
   | some _ =>
     (print_str ctx AT_COMMAND_HEADER_HELP).2 ++ (print_str ctx "AT".data).2 ++
       (print_command_header ctx ty).2 ++ (print_str ctx c.syn).2 ++
       (if ty ≠ 0 then (print_str ctx ['=']).2 else []) ++
       (print_str ctx (c.write_arguments.getD [])).2 ++
       (print_str ctx " : ".data).2 ++ (print_line ctx c.write_help).2) ++
  (match c.read_callback with
   | none => []
   | some _ =>
     (print_str ctx AT_COMMAND_HEADER_HELP).2 ++ (print_str ctx "AT".data).2 ++
       (print_command_header ctx ty).2 ++ (print_str ctx c.syn).2 ++
       (print_str ctx ['?']).2 ++ (print_str ctx " : ".data).2 ++
       (print_line ctx c.read_help).2)

/-- The C `_print_help` of at.c: fixed "None" line when no command of the kind is
registered, else every matching slot's section in slot order. -/
def print_help (ctx : Ctx) (ty : Nat) : AT_status × List Event :=
  if ctx.commands_count.getD ty 0 = 0 then print_line ctx "    None".data
  else
    (.SUCCESS,
      ctx.commands_list.foldr
        (fun slot acc =>
          (match slot with
           | none => []
           | some cid =>
             if (ctx.env cid).ty = ty then help_entry ctx ty (ctx.env cid) else []) ++ acc)
        [])

/-- The C `AT_send_reply` of at.c: optional kind-marker/command-syntax/colon prefix,
the text, then the terminator; `NullParameter` on empty text.  (A NULL text
pointer is not representable here; callbacks pass real strings.) -/
def AT_send_reply (ctx : Ctx) (command : Option Nat) (reply : List Char) :
    AT_status × List Event :=
  if reply = [] then (.ERROR_NULL_PARAMETER, [])
  else
    let command_ptr := match command with | some c => some c | none => ctx.current_command
    match command_ptr with
    | some cid =>
      let c := ctx.env cid
      if c.ty ≥ AT_COMMAND_TYPE_LAST then (.ERROR_COMMAND_TYPE, [])
      else
        (.SUCCESS,
          (print_command_header ctx c.ty).2 ++ (print_str ctx c.syn).2 ++
            (print_str ctx [':']).2 ++ (print_str ctx reply).2 ++ (end_line ctx).2)
    | none => (.SUCCESS, (print_str ctx reply).2 ++ (end_line ctx).2)

/-- Interpretation of one callback effect against the module state. -/
def apply_effect (ctx : Ctx) (e : CbEffect) : Ctx × List Event :=
  match e with
  | .setEcho v => ({ ctx with flags := { ctx.flags with echo := v % 2 } }, [])
  | .setVerbose v => ({ ctx with flags := { ctx.flags with verbose := v % 2 } }, [])
  | .setQuiet v => ({ ctx with flags := { ctx.flags with quiet := v % 2 } }, [])
  | .sendReply c text => (ctx, (AT_send_reply ctx c text).2)

/-- Sequential interpretation of a callback's effects. -/
def apply_effects (ctx : Ctx) : List CbEffect → Ctx × List Event
  | [] => (ctx, [])
  | e :: rest =>
    let p := apply_effect ctx e
    let q := apply_effects p.1 rest
    (q.1, p.2 ++ q.2)

/-- Runs a callback result: applies its effects and propagates its status and
error code (the C code returns the callback's status on failure and
`AT_SUCCESS` on success, which is the same value). -/
def run_callback (ctx : Ctx) (r : CbResult) : AT_status × Int × Ctx × List Event :=
  let p := apply_effects ctx r.2.2
  (r.1, r.2.1, p.1, p.2)

/-- Argument tokenization of `_parse_and_execute_command` (the two `while`
loops around `strtok_r` with separator `","`): leading separators yield
explicit NULL slots, each token is delivered as-is, `strtok_r` consumes the
single separator terminating a token, and every further consecutive separator
yields a NULL slot.  Structured with a fuel argument (one unit per consumed
character, so `s.length` units always suffice) to keep the recursion
structural. -/
def tokenize_fuel : Nat → List Char → List (Option (List Char))
  | 0, _ => []
  | _, [] => []
  | fuel + 1, c :: rest =>
    if c = ',' then none :: tokenize_fuel fuel rest
    else
      some ((c :: rest).takeWhile (fun x => x ≠ ',')) ::
        (match (c :: rest).dropWhile (fun x => x ≠ ',') with
         | [] => []
         | _ :: r2 => tokenize_fuel fuel r2)

/-- Tokenization of a (NUL-truncated) content string. -/
def tokenize (s : List Char) : List (Option (List Char)) :=
  tokenize_fuel s.length s

/-- The command-search loop of `_parse_and_execute_command`: scan the slots in
order, skip empty slots and slots of another kind, stop at the first
descriptor whose syntax is a byte-exact prefix (`memcmp` over `strlen(syntax)`
bytes) of the input. -/
def scan_list (env : Nat → Cmd) (input : List Char) (ty : Nat) :
    List (Option Nat) → Option Nat
  | [] => none
  | slot :: rest =>
    match slot with
    | none => scan_list env input ty rest
    | some cid =>
      if (env cid).ty ≠ ty then scan_list env input ty rest
      else if (env cid).syn.isPrefixOf input then some cid
      else scan_list env input ty rest

/-- The C `_parse_and_execute_command` of at.c.  `input` is the raw buffer from the
command start (`&rx_buffer[k]`), so the byte after a full-line match is the
buffer's zero padding, i.e. the end-of-line marker `'\0'`.  Returns the
status, the `command_return_code` written (0 when no callback wrote it), the
new context and the transport events of the callback's replies. -/
def parse_and_execute_command (ctx : Ctx) (input : List Char) (ty : Nat) :
    AT_status × Int × Ctx × List Event :=
  let ctx0 := { ctx with current_command := none }
  match scan_list ctx.env input ty ctx.commands_list with
  | none => (.ERROR_INTERNAL_COMMAND_NOT_FOUND, 0, ctx0, [])
  | some cid =>
    let ctx1 := { ctx0 with current_command := some cid }
    let c := ctx1.env cid
    let command_size := c.syn.length
    let marker := input.getD command_size '\x00'
    if marker = '\x00' then
      match c.execution_callback with
      | none => (.ERROR_INTERNAL_COMMAND_EXECUTION_NOT_DEFINED, 0, ctx1, [])
      | some cb => run_callback ctx1 (cb ctx1.flags)
    else if marker = '?' then
      match c.read_callback with
      | none => (.ERROR_INTERNAL_COMMAND_READ_NOT_DEFINED, 0, ctx1, [])
      | some cb => run_callback ctx1 (cb ctx1.flags)
    else if marker = '=' ∨ ty = 0 then
      match c.write_callback with
      | none => (.ERROR_INTERNAL_COMMAND_WRITE_NOT_DEFINED, 0, ctx1, [])
      | some cb =>
        let content := if ty = 0 then input.drop command_size
                       else input.drop (command_size + 1)
        let argv := tokenize (cstrOf content)
        run_callback ctx1 (cb argv.length argv ctx1.flags)
    else (.ERROR_INTERNAL_COMMAND_MARKER_NOT_DEFINED, 0, ctx1, [])

/-- The `AT?` full-help output of `AT_process`: the three section headers each
followed by that kind's help. -/
def full_help_events (ctx : Ctx) : List Event :=
  (print_line ctx "Basic commands".data).2 ++ (print_help ctx 0).2 ++
    (print_line ctx "Extended commands".data).2 ++ (print_help ctx 1).2 ++
    (print_line ctx "Debug commands".data).2 ++ (print_help ctx 2).2

/-- Header validation and dispatch of `AT_process` (from the `memcmp` against
`AT_HEADER` through the `switch` on `rx_buffer[2]`). -/
def process_body (ctx : Ctx) : AT_status × Int × Ctx × List Event :=
  if ctx.rx_buffer.getD 0 '\x00' = 'A' ∧ ctx.rx_buffer.getD 1 '\x00' = 'T' then
    if ctx.rx_buffer.getD 2 '\x00' = '\x00' then (.SUCCESS, 0, ctx, [])
    else if ctx.rx_buffer.getD 2 '\x00' = '?' then
      if ctx.rx_buffer.getD 3 '\x00' = '\x00' then (.SUCCESS, 0, ctx, full_help_events ctx)
      else (.ERROR_INTERNAL_COMMAND_PARSING, 0, ctx, [])
    else if ctx.rx_buffer.getD 2 '\x00' = '$' then
      parse_and_execute_command ctx (ctx.rx_buffer.drop 3) 1
    else if ctx.rx_buffer.getD 2 '\x00' = '!' then
      parse_and_execute_command ctx (ctx.rx_buffer.drop 3) 2
    else parse_and_execute_command ctx (ctx.rx_buffer.drop 2) 0
  else (.ERROR_INTERNAL_COMMAND_PARSING, 0, ctx, [])

/-- Body of `AT_process` once the process flag was found set and cleared
(`ctx` is the context after the flag clear): echo the raw line if echo is on,
validate the header and dispatch, and — regardless of outcome — print the
status line, clear pending, zero the whole buffer and reset the fill
length. -/
def at_process_go (ctx : Ctx) : AT_status × Ctx × List Event :=
  let echo_events :=
    if ctx.flags.echo ≠ 0 then (print_line ctx (cstrOf ctx.rx_buffer)).2 else []
  let r := process_body ctx
  let status_events := print_command_status r.2.2.1 r.1 r.2.1
  let ctxZ := { r.2.2.1 with
      flags := { r.2.2.1.flags with pending := 0 },
      rx_buffer := List.replicate AT_BUFFER_SIZE '\x00',
      rx_buffer_size := 0 }
  (r.1, ctxZ, echo_events ++ r.2.2.2 ++ status_events)

/-- The C `AT_process` of at.c: no-op unless the process flag is set; otherwise
clear it and run the full line cycle. -/
def AT_process (ctx : Ctx) : AT_status × Ctx × List Event :=
  if ctx.flags.process = 0 then (.SUCCESS, ctx, [])
  else at_process_go { ctx with flags := { ctx.flags with process := 0 } }

/-- Index of the first free (null) slot, if any. -/
def first_free : List (Option Nat) → Option Nat
  | [] => none
  | none :: _ => some 0
  | some _ :: rest => (first_free rest).map (fun i => i + 1)

/-- The C `AT_register_command` of at.c.  Mirrors the C control flow exactly,
including its final unconditional `return AT_SUCCESS;`: when no free slot
exists the insertion loop does nothing and the function nevertheless returns
`AT_SUCCESS` (the local `status` initialized to `AT_ERROR_COMMANDS_LIST_FULL`
is never returned).  Per-kind counts are `uint8_t`, hence the mod-256
increment. -/
def AT_register_command (ctx : Ctx) (command : Option Nat) : AT_status × Ctx :=
  match command with
  | none => (.ERROR_NULL_PARAMETER, ctx)
  | some cid =>
    let c := ctx.env cid
    if c.write_callback.isSome ∧ c.write_arguments.isNone then
      (.ERROR_WRITE_CALLBACK_WITHOUT_PARAMETER, ctx)
    else if c.ty ≥ AT_COMMAND_TYPE_LAST then (.ERROR_COMMAND_TYPE, ctx)
    else if ctx.commands_list.contains (some cid) then
      (.ERROR_COMMAND_ALREADY_REGISTERED, ctx)
    else
      match first_free ctx.commands_list with
      | some i =>
        (.SUCCESS,
          { ctx with
              commands_list := ctx.commands_list.set i (some cid),
              commands_count :=
                ctx.commands_count.set c.ty
                  ((ctx.commands_count.getD c.ty 0 + 1) % 256) })
      | none => (.SUCCESS, ctx)

/-- Outcome of `AT_unregister_command`: either a returned status with the new
context, or the null-pointer dereference the C code performs when the matched
"command" pointer is NULL (`command->type` on a null `command`), tagged with
the slot index at which the match happened. -/
inductive UnregResult where
  | ok (st : AT_status) (ctx : Ctx)
  | nullDeref (idx : Nat)

/-- The search loop of `AT_unregister_command`: first slot whose stored
pointer equals the argument pointer; on a match the slot is cleared and the
count of `command->type` is decremented (`uint8_t`, hence mod 256) — a null
argument makes that decrement dereference a null pointer. -/
def unregister_loop (ctx : Ctx) (command : Option Nat) :
    Nat → List (Option Nat) → UnregResult
  | _, [] => .ok .ERROR_COMMAND_NOT_REGISTERED ctx
  | i, slot :: rest =>
    if slot = command then
      match command with
      | some cid =>
        .ok .SUCCESS
          { ctx with
              commands_list := ctx.commands_list.set i none,
              commands_count :=
                ctx.commands_count.set (ctx.env cid).ty
                  ((ctx.commands_count.getD (ctx.env cid).ty 0 + 255) % 256) }
      | none => .nullDeref i
    else unregister_loop ctx command (i + 1) rest

/-- The C `AT_unregister_command` of at.c. -/
def AT_unregister_command (ctx : Ctx) (command : Option Nat) : UnregResult :=
  unregister_loop ctx command 0 ctx.commands_list

/-- Feeds a byte sequence to the receive interrupt callback. -/
def ingest_line (ctx : Ctx) (l : List Char) : Ctx :=
  l.foldl (fun c d => (rx_irq_callback d c).1) ctx

/-- The bytes a trace actually put on the transport, in order. -/
def out_bytes : List Event → List Char
  | [] => []
  | .write l :: rest => l ++ out_bytes rest
  | .statusLine _ _ :: rest => out_bytes rest

/-- Whether an event is the formatter's status-line emission. -/
def is_status_event : Event → Bool
  | .statusLine _ _ => true
  | .write _ => false

/-- A line as it sits in the receive buffer: the stored bytes followed by the
buffer's zero padding. -/
def line_buffer (line : List Char) : List Char :=
  line ++ List.replicate (AT_BUFFER_SIZE - line.length) '\x00'

/-- The all-zero (cleared) receive buffer. -/
def zero_buffer : List Char := List.replicate AT_BUFFER_SIZE '\x00'

/-- Descriptor memory holding the three built-in commands at pointers 0, 1, 2
(as laid out by `AT_init`). -/
def builtin_env : Nat → Cmd
  | 0 => AT_COMMAND_ECHO
  | 1 => AT_COMMAND_VERBOSE
  | _ => AT_COMMAND_QUIET

/-- Registry slots after `AT_init` registered the three built-ins. -/
def builtin_slots : List (Option Nat) :=
  [some 0, some 1, some 2] ++ List.replicate 61 (none : Option Nat)

/-- A context with the built-in commands registered, given flag state and a
received line sitting in the buffer (as `_rx_irq_callback` would leave it). -/
def mkCtx (fl : Flags) (line : List Char) : Ctx where
  env := builtin_env
  process_cb := true
  flags := fl
  rx_buffer := line_buffer line
  rx_buffer_size := line.length
  current_command := none
  commands_list := builtin_slots
  commands_count := [3, 0, 0]

/-- A minimal valid descriptor (Basic kind, no callbacks), used to populate a
full registry. -/
def dummy_cmd : Cmd where
  syn := ['X']
  ty := 0
  help := []
  execution_callback := none
  execution_help := []
  read_callback := none
  read_help := []
  write_callback := none
  write_arguments := none
  write_help := []
  enum_to_str_callback := none

/-- A context whose 64 registry slots are all occupied (by pointers 0..63). -/
def ctx_full : Ctx where
  env := fun _ => dummy_cmd
  process_cb := true
  flags := ⟨0, 0, 0, 0, 0⟩
  rx_buffer := zero_buffer
  rx_buffer_size := 0
  current_command := none
  commands_list := (List.range AT_COMMAND_LIST_SIZE).map some
  commands_count := [64, 0, 0]

/-- An idle context with an empty registry (no commands registered). -/
def ctx_empty_idle : Ctx where
  env := fun _ => AT_COMMAND_ECHO
  process_cb := true
  flags := ⟨0, 0, 0, 1, 0⟩
  rx_buffer := zero_buffer
  rx_buffer_size := 0
  current_command := none
  commands_list := List.replicate AT_COMMAND_LIST_SIZE (none : Option Nat)
  commands_count := [0, 0, 0]

/-- A quiet-mode context with an empty registry and the line `AT` pending. -/
def ctx_empty_quiet : Ctx where
  env := fun _ => AT_COMMAND_ECHO
  process_cb := true
  flags := ⟨1, 1, 1, 0, 0⟩
  rx_buffer := line_buffer "AT".data
  rx_buffer_size := 2
  current_command := none
  commands_list := List.replicate AT_COMMAND_LIST_SIZE (none : Option Nat)
  commands_count := [0, 0, 0]

/-- The spec's description of the dispatcher's slot predicate: an occupied
slot of the requested kind whose syntax is a byte-exact prefix of the line's
content. -/
def matches_spec (env : Nat → Cmd) (input : List Char) (ty : Nat) :
    Option Nat → Bool
  | none => false
  | some cid => ((env cid).ty == ty) && (env cid).syn.isPrefixOf input

/-- Modelled from the spec: "Scans registry slots of the matching kind in
registration order and selects the first whose syntax prefix matches the
line's content."  First slot (in slot order) satisfying `matches_spec`. -/
def dispatch_first_match (ctx : Ctx) (input : List Char) (ty : Nat) : Option Nat :=
  Option.join (ctx.commands_list.find? (matches_spec ctx.env input ty))

/-- An effect that cannot clear the quiet flag: any reply or mode write other
than storing an even value into the one-bit quiet field. -/
def effect_keeps_quiet : CbEffect → Prop
  | .setQuiet v => v % 2 = 1
  | _ => True

/-- A callback result none of whose effects can clear the quiet flag. -/
def result_keeps_quiet (r : CbResult) : Prop :=
  ∀ e ∈ r.2.2, effect_keeps_quiet e

/-- All callbacks reachable through the registry keep the quiet flag set. -/
def callbacks_keep_quiet (ctx : Ctx) : Prop :=
  ∀ cid, some cid ∈ ctx.commands_list →
    (∀ cb fl, (ctx.env cid).execution_callback = some cb → result_keeps_quiet (cb fl)) ∧
    (∀ cb fl, (ctx.env cid).read_callback = some cb → result_keeps_quiet (cb fl)) ∧
    (∀ cb n argv fl, (ctx.env cid).write_callback = some cb →
      result_keeps_quiet (cb n argv fl))

/-- An effect that mutates no module state: a reply. -/
def effect_is_reply : CbEffect → Prop
  | .sendReply _ _ => True
  | _ => False

/-- A callback result that mutates no module state (registry or mode flags):
all its effects are replies. -/
def result_only_replies (r : CbResult) : Prop :=
  ∀ e ∈ r.2.2, effect_is_reply e

/-- All callbacks reachable through the registry mutate no module state. -/
def registry_only_replies (ctx : Ctx) : Prop :=
  ∀ cid, some cid ∈ ctx.commands_list →
    (∀ cb fl, (ctx.env cid).execution_callback = some cb → result_only_replies (cb fl)) ∧
    (∀ cb fl, (ctx.env cid).read_callback = some cb → result_only_replies (cb fl)) ∧
    (∀ cb n argv fl, (ctx.env cid).write_callback = some cb →
      result_only_replies (cb n argv fl))

/-! ## Helper lemmas -/

theorem out_bytes_append (a b : List Event) :
    out_bytes (a ++ b) = out_bytes a ++ out_bytes b := by
  induction a with
  | nil => rfl
  | cons e rest ih => cases e <;> simp [out_bytes, ih]

theorem print_tab_quiet (ctx : Ctx) (t : List Char) (n : Nat)
    (h : ctx.flags.quiet = 1) : (print_tab ctx t n).2 = [] := by
  simp [print_tab, h]

theorem print_str_quiet (ctx : Ctx) (t : List Char) (h : ctx.flags.quiet = 1) :
    (print_str ctx t).2 = [] := by
  simp [print_str, print_tab_quiet ctx t t.length h]

theorem end_line_quiet (ctx : Ctx) (h : ctx.flags.quiet = 1) :
    (end_line ctx).2 = [] := by
  simp [end_line, print_tab_quiet ctx _ 2 h]

theorem print_tab_fst (ctx : Ctx) (t : List Char) (n : Nat) :
    (print_tab ctx t n).1 = .SUCCESS := by
  unfold print_tab; split <;> rfl

theorem print_str_fst (ctx : Ctx) (t : List Char) :
    (print_str ctx t).1 = .SUCCESS := print_tab_fst ctx t t.length

theorem print_line_quiet (ctx : Ctx) (t : List Char) (h : ctx.flags.quiet = 1) :
    (print_line ctx t).2 = [] := by
  simp [print_line, print_str_fst, print_str_quiet ctx t h, end_line_quiet ctx h]

theorem print_command_header_quiet (ctx : Ctx) (ty : Nat)
    (h : ctx.flags.quiet = 1) : (print_command_header ctx ty).2 = [] := by
  unfold print_command_header
  split
  · rfl
  · exact print_str_quiet ctx _ h

theorem help_entry_quiet (ctx : Ctx) (ty : Nat) (c : Cmd)
    (h : ctx.flags.quiet = 1) : help_entry ctx ty c = [] := by
  unfold help_entry
  cases c.execution_callback <;> cases c.write_callback <;> cases c.read_callback <;>
    simp [print_str_quiet _ _ h, print_line_quiet _ _ h, print_command_header_quiet _ _ h]

theorem foldr_sections_nil {α : Type} (g : α → List Event) (l : List α)
    (h : ∀ s ∈ l, g s = []) : l.foldr (fun s acc => g s ++ acc) [] = [] := by
  induction l with
  | nil => rfl
  | cons a rest ih =>
    simp only [List.foldr_cons, h a (List.mem_cons_self a rest)]
    exact ih (fun s hs => h s (List.mem_cons_of_mem a hs))

theorem print_help_quiet (ctx : Ctx) (ty : Nat) (h : ctx.flags.quiet = 1) :
    (print_help ctx ty).2 = [] := by
  unfold print_help
  split
  · exact print_line_quiet ctx _ h
  · refine foldr_sections_nil _ _ (fun s _ => ?_)
    cases s with
    | none => rfl
    | some cid =>
      by_cases hty : (ctx.env cid).ty = ty <;>
        simp [hty, help_entry_quiet ctx ty (ctx.env cid) h]

theorem full_help_quiet (ctx : Ctx) (h : ctx.flags.quiet = 1) :
    full_help_events ctx = [] := by
  simp [full_help_events, print_line_quiet _ _ h, print_help_quiet _ _ h]

theorem send_reply_quiet (ctx : Ctx) (cmd : Option Nat) (text : List Char)
    (h : ctx.flags.quiet = 1) : (AT_send_reply ctx cmd text).2 = [] := by
  unfold AT_send_reply
  by_cases ht : text = []
  · simp [ht]
  · rw [if_neg ht]
    dsimp only
    cases cmd with
    | some c =>
      dsimp only
      simp only [print_str_quiet _ _ h, end_line_quiet _ h,
        print_command_header_quiet _ _ h]
      split <;> simp
    | none =>
      dsimp only
      cases hcc : ctx.current_command with
      | some cid =>
        simp only [print_str_quiet _ _ h, end_line_quiet _ h,
          print_command_header_quiet _ _ h]
        split <;> simp
      | none => simp [print_str_quiet _ _ h, end_line_quiet _ h]

theorem apply_effect_quiet (ctx : Ctx) (e : CbEffect) (h : ctx.flags.quiet = 1)
    (he : effect_keeps_quiet e) :
    (apply_effect ctx e).1.flags.quiet = 1 ∧ (apply_effect ctx e).2 = [] := by
  cases e with
  | setEcho v => exact ⟨h, rfl⟩
  | setVerbose v => exact ⟨h, rfl⟩
  | setQuiet v => exact ⟨he, rfl⟩
  | sendReply c text => exact ⟨h, send_reply_quiet ctx c text h⟩

theorem apply_effects_quiet (effs : List CbEffect) : ∀ (ctx : Ctx),
    ctx.flags.quiet = 1 → (∀ e ∈ effs, effect_keeps_quiet e) →
    (apply_effects ctx effs).1.flags.quiet = 1 ∧ (apply_effects ctx effs).2 = [] := by
  induction effs with
  | nil => intro ctx h _; exact ⟨h, rfl⟩
  | cons e rest ih =>
    intro ctx h hall
    have h1 := apply_effect_quiet ctx e h (hall e (List.mem_cons_self e rest))
    have h2 := ih (apply_effect ctx e).1 h1.1 (fun x hx => hall x (List.mem_cons_of_mem e hx))
    simp only [apply_effects]
    exact ⟨h2.1, by rw [h1.2, h2.2]; rfl⟩

theorem run_callback_quiet (ctx : Ctx) (r : CbResult) (h : ctx.flags.quiet = 1)
    (hr : result_keeps_quiet r) :
    (run_callback ctx r).2.2.1.flags.quiet = 1 ∧ (run_callback ctx r).2.2.2 = [] := by
  exact apply_effects_quiet r.2.2 ctx h hr

theorem count_status_print_tab (ctx : Ctx) (t : List Char) (n : Nat) :
    (print_tab ctx t n).2.countP is_status_event = 0 := by
  unfold print_tab; split <;> simp [is_status_event]

theorem count_status_print_str (ctx : Ctx) (t : List Char) :
    (print_str ctx t).2.countP is_status_event = 0 :=
  count_status_print_tab ctx t t.length

theorem count_status_end_line (ctx : Ctx) :
    (end_line ctx).2.countP is_status_event = 0 :=
  count_status_print_tab ctx _ 2

theorem count_status_print_line (ctx : Ctx) (t : List Char) :
    (print_line ctx t).2.countP is_status_event = 0 := by
  simp [print_line, print_str_fst, List.countP_append, count_status_print_str,
    count_status_end_line]

theorem count_status_print_command_header (ctx : Ctx) (ty : Nat) :
    (print_command_header ctx ty).2.countP is_status_event = 0 := by
  unfold print_command_header
  split
  · rfl
  · exact count_status_print_str ctx _

theorem count_status_help_entry (ctx : Ctx) (ty : Nat) (c : Cmd) :
    (help_entry ctx ty c).countP is_status_event = 0 := by
  unfold help_entry
  cases c.execution_callback <;> cases c.write_callback <;> cases c.read_callback <;>
    by_cases hty : ty ≠ 0 <;>
      simp [hty, List.countP_append, count_status_print_str, count_status_print_line,
        count_status_print_command_header]

theorem count_status_foldr {α : Type} (g : α → List Event) (l : List α)
    (h : ∀ s ∈ l, (g s).countP is_status_event = 0) :
    (l.foldr (fun s acc => g s ++ acc) []).countP is_status_event = 0 := by
  induction l with
  | nil => rfl
  | cons a rest ih =>
    simp only [List.foldr_cons, List.countP_append]
    rw [h a (List.mem_cons_self a rest),
      ih (fun s hs => h s (List.mem_cons_of_mem a hs))]

theorem count_status_print_help (ctx : Ctx) (ty : Nat) :
    (print_help ctx ty).2.countP is_status_event = 0 := by
  unfold print_help
  split
  · exact count_status_print_line ctx _
  · refine count_status_foldr _ _ (fun s _ => ?_)
    cases s with
    | none => rfl
    | some cid =>
      by_cases hty : (ctx.env cid).ty = ty <;> simp [hty, count_status_help_entry]

theorem count_status_full_help (ctx : Ctx) :
    (full_help_events ctx).countP is_status_event = 0 := by
  simp [full_help_events, List.countP_append, count_status_print_line,
    count_status_print_help]

theorem count_status_send_reply (ctx : Ctx) (cmd : Option Nat) (text : List Char) :
    (AT_send_reply ctx cmd text).2.countP is_status_event = 0 := by
  unfold AT_send_reply
  by_cases ht : text = []
  · simp [ht]
  · rw [if_neg ht]
    dsimp only
    cases cmd with
    | some c =>
      dsimp only
      split
      · rfl
      · simp [List.countP_append, count_status_print_str, count_status_end_line,
          count_status_print_command_header]
    | none =>
      dsimp only
      cases hcc : ctx.current_command with
      | some cid =>
        dsimp only
        split_ifs <;>
          simp [List.countP_append, count_status_print_str, count_status_end_line,
            count_status_print_command_header]
      | none =>
        simp [List.countP_append, count_status_print_str, count_status_end_line]

theorem count_status_apply_effect (ctx : Ctx) (e : CbEffect) :
    (apply_effect ctx e).2.countP is_status_event = 0 := by
  cases e with
  | setEcho v => rfl
  | setVerbose v => rfl
  | setQuiet v => rfl
  | sendReply c text => exact count_status_send_reply ctx c text

theorem count_status_apply_effects (effs : List CbEffect) : ∀ (ctx : Ctx),
    (apply_effects ctx effs).2.countP is_status_event = 0 := by
  induction effs with
  | nil => intro ctx; rfl
  | cons e rest ih =>
    intro ctx
    simp only [apply_effects, List.countP_append]
    rw [count_status_apply_effect, ih]

theorem count_status_parse (ctx : Ctx) (input : List Char) (ty : Nat) :
    (parse_and_execute_command ctx input ty).2.2.2.countP is_status_event = 0 := by
  unfold parse_and_execute_command
  cases hscan : scan_list ctx.env input ty ctx.commands_list with
  | none => rfl
  | some cid =>
    dsimp only
    split_ifs <;>
      first
      | rfl
      | (cases (ctx.env cid).execution_callback with
         | none => rfl
         | some cb => exact count_status_apply_effects _ _)
      | (cases (ctx.env cid).read_callback with
         | none => rfl
         | some cb => exact count_status_apply_effects _ _)
      | (cases (ctx.env cid).write_callback with
         | none => rfl
         | some cb => exact count_status_apply_effects _ _)

theorem count_status_pcs (ctx : Ctx) (st : AT_status) (code : Int) :
    (print_command_status ctx st code).countP is_status_event = 1 := by
  unfold print_command_status
  split_ifs <;>
    simp [List.countP_cons, List.countP_append, is_status_event,
      count_status_print_tab, count_status_print_str, count_status_end_line]

theorem scan_list_mem (env : Nat → Cmd) (input : List Char) (ty : Nat) (cid : Nat) :
    ∀ l : List (Option Nat), scan_list env input ty l = some cid → some cid ∈ l := by
  intro l
  induction l with
  | nil => intro h; exact absurd h (by simp [scan_list])
  | cons slot rest ih =>
    intro h
    cases slot with
    | none => exact List.mem_cons_of_mem _ (ih h)
    | some c =>
      rw [scan_list] at h
      by_cases h1 : (env c).ty ≠ ty
      · rw [if_pos h1] at h
        exact List.mem_cons_of_mem _ (ih h)
      · rw [if_neg h1] at h
        by_cases h2 : (env c).syn.isPrefixOf input
        · rw [if_pos h2] at h
          simp only [Option.some.injEq] at h
          rw [h]
          exact List.mem_cons_self _ _
        · rw [if_neg h2] at h
          exact List.mem_cons_of_mem _ (ih h)

theorem set_append_len {α : Type} (A : List α) (l : List α) (d : α) :
    (A ++ l).set A.length d = A ++ l.set 0 d := by
  induction A with
  | nil => rfl
  | cons a t ih => simp [List.set, ih]

theorem ingest_chars (line : List Char) : ∀ (ctx : Ctx) (A : List Char),
    ctx.flags.pending = 0 →
    ctx.rx_buffer = A ++ List.replicate (AT_BUFFER_SIZE - A.length) '\x00' →
    ctx.rx_buffer_size = A.length →
    A.length + line.length ≤ 127 →
    '\x00' ∉ line → '\r' ∉ line →
    ingest_line ctx line =
      { ctx with
          rx_buffer :=
            (A ++ line) ++ List.replicate (AT_BUFFER_SIZE - (A ++ line).length) '\x00',
          rx_buffer_size := A.length + line.length } := by
  induction line with
  | nil =>
    intro ctx A h1 h2 h3 h4 h5 h6
    apply Ctx.ext <;> simp [ingest_line, h2, h3]
  | cons d rest ih =>
    intro ctx A h1 h2 h3 h4 h5 h6
    have hd0 : ¬(d = '\x00' ∨ ctx.flags.pending = 1) := by
      rintro (h | h)
      · exact h5 (h ▸ List.mem_cons_self d rest)
      · rw [h1] at h; exact absurd h (by norm_num)
    have hdr : d ≠ '\r' := fun h => h6 (h ▸ List.mem_cons_self d rest)
    have hstep : (rx_irq_callback d ctx).1 =
        { ctx with rx_buffer := ctx.rx_buffer.set ctx.rx_buffer_size d,
                   rx_buffer_size := (ctx.rx_buffer_size + 1) % AT_BUFFER_SIZE } := by
      rw [rx_irq_callback, if_neg hd0, if_neg hdr]
    have hk : 1 ≤ AT_BUFFER_SIZE - A.length := by
      simp only [List.length_cons] at h4
      simp [AT_BUFFER_SIZE]
      omega
    have hbuf2 : ctx.rx_buffer.set ctx.rx_buffer_size d =
        (A ++ [d]) ++ List.replicate (AT_BUFFER_SIZE - (A ++ [d]).length) '\x00' := by
      rw [h2, h3, set_append_len]
      have : List.replicate (AT_BUFFER_SIZE - A.length) '\x00' =
          '\x00' :: List.replicate (AT_BUFFER_SIZE - A.length - 1) '\x00' := by
        rw [show AT_BUFFER_SIZE - A.length = (AT_BUFFER_SIZE - A.length - 1) + 1 by omega]
        rfl
      rw [this]
      simp [List.append_assoc]
      omega
    have hsz2 : (ctx.rx_buffer_size + 1) % AT_BUFFER_SIZE = (A ++ [d]).length := by
      rw [h3]
      simp only [List.length_cons] at h4
      simp [AT_BUFFER_SIZE]
      omega
    have hfold : ingest_line ctx (d :: rest) = ingest_line (rx_irq_callback d ctx).1 rest := rfl
    have hrec := ih
      { ctx with rx_buffer := ctx.rx_buffer.set ctx.rx_buffer_size d,
                 rx_buffer_size := (ctx.rx_buffer_size + 1) % AT_BUFFER_SIZE }
      (A ++ [d]) h1 hbuf2 hsz2
      (by simp only [List.length_append, List.length_cons] at h4 ⊢; simp; omega)
      (fun h => h5 (List.mem_cons_of_mem d h))
      (fun h => h6 (List.mem_cons_of_mem d h))
    rw [hfold, hstep, hrec]
    apply Ctx.ext <;> simp [List.append_assoc] <;> omega

theorem rx_irq_cr (c : Ctx) (h : c.flags.pending = 0) :
    (rx_irq_callback '\r' c).1
      = { c with flags := { c.flags with process := 1, pending := 1 } } := by
  simp [rx_irq_callback, h]

theorem ingest_ready (ctx : Ctx) (line : List Char)
    (hpend : ctx.flags.pending = 0)
    (hbuf : ctx.rx_buffer = zero_buffer) (hsize : ctx.rx_buffer_size = 0)
    (hlen : line.length ≤ 127) (hnul : '\x00' ∉ line) (hcr : '\r' ∉ line) :
    ingest_line ctx (line ++ ['\r']) =
      { ctx with
          flags := { ctx.flags with process := 1, pending := 1 },
          rx_buffer := line_buffer line,
          rx_buffer_size := line.length } := by
  have hmid := ingest_chars line ctx [] hpend
    (by simpa [zero_buffer] using hbuf) hsize (by simpa using hlen) hnul hcr
  have hsplit : ingest_line ctx (line ++ ['\r'])
      = ingest_line (ingest_line ctx line) ['\r'] := by
    simp [ingest_line, List.foldl_append]
  rw [hsplit]
  show (rx_irq_callback '\r' (ingest_line ctx line)).1 = _
  rw [rx_irq_cr (ingest_line ctx line) (by rw [hmid]; exact hpend), hmid]
  apply Ctx.ext <;> simp [line_buffer]

theorem apply_effects_replies (effs : List CbEffect) : ∀ (ctx : Ctx),
    (∀ e ∈ effs, effect_is_reply e) → (apply_effects ctx effs).1 = ctx := by
  induction effs with
  | nil => intro ctx _; rfl
  | cons e rest ih =>
    intro ctx h
    have he := h e (List.mem_cons_self e rest)
    cases e with
    | sendReply c t =>
      simp only [apply_effects, apply_effect]
      exact ih ctx (fun x hx => h x (List.mem_cons_of_mem _ hx))
    | setEcho v => exact he.elim
    | setVerbose v => exact he.elim
    | setQuiet v => exact he.elim

theorem parse_post (ctx : Ctx) (input : List Char) (ty : Nat)
    (hcb : registry_only_replies ctx) :
    ∃ o, (parse_and_execute_command ctx input ty).2.2.1
      = { ctx with current_command := o } := by
  unfold parse_and_execute_command
  cases hscan : scan_list ctx.env input ty ctx.commands_list with
  | none => exact ⟨none, rfl⟩
  | some cid =>
    have hmem := scan_list_mem ctx.env input ty cid ctx.commands_list hscan
    obtain ⟨hex, hrd, hwr⟩ := hcb cid hmem
    dsimp only
    split_ifs <;>
      first
      | exact ⟨some cid, rfl⟩
      | (cases hcbe : (ctx.env cid).execution_callback with
         | none => exact ⟨some cid, rfl⟩
         | some cb =>
           refine ⟨some cid, ?_⟩
           show (run_callback _ _).2.2.1 = _
           simp only [run_callback]
           exact apply_effects_replies _ _ (hex cb _ hcbe))
      | (cases hcbe : (ctx.env cid).read_callback with
         | none => exact ⟨some cid, rfl⟩
         | some cb =>
           refine ⟨some cid, ?_⟩
           show (run_callback _ _).2.2.1 = _
           simp only [run_callback]
           exact apply_effects_replies _ _ (hrd cb _ hcbe))
      | (cases hcbe : (ctx.env cid).write_callback with
         | none => exact ⟨some cid, rfl⟩
         | some cb =>
           refine ⟨some cid, ?_⟩
           show (run_callback _ _).2.2.1 = _
           simp only [run_callback]
           exact apply_effects_replies _ _ (hwr cb _ _ _ hcbe))

theorem process_body_post (c : Ctx) (hcb : registry_only_replies c) :
    ∃ o, (process_body c).2.2.1 = { c with current_command := o } := by
  unfold process_body
  split_ifs <;>
    first
    | exact ⟨c.current_command, rfl⟩
    | exact parse_post c _ _ hcb

theorem at_process_post (ctx : Ctx) (hp : ¬ ctx.flags.process = 0)
    (hcb : registry_only_replies ctx) :
    ∃ o, (AT_process ctx).2.1 =
      { ctx with
          flags := { ctx.flags with process := 0, pending := 0 },
          rx_buffer := zero_buffer, rx_buffer_size := 0,
          current_command := o } := by
  simp only [AT_process]
  rw [if_neg hp]
  obtain ⟨o, ho⟩ :=
    process_body_post { ctx with flags := { ctx.flags with process := 0 } } hcb
  refine ⟨o, ?_⟩
  dsimp only [at_process_go]
  rw [ho]
  rfl

theorem print_line_cc (c : Ctx) (o : Option Nat) (l : List Char) :
    print_line { c with current_command := o } l = print_line c l := rfl

theorem parse_cc (c : Ctx) (o : Option Nat) (input : List Char) (ty : Nat) :
    parse_and_execute_command { c with current_command := o } input ty
      = parse_and_execute_command c input ty := rfl

theorem process_body_cc (c : Ctx) (o : Option Nat) :
    (process_body { c with current_command := o }).1 = (process_body c).1 ∧
    (process_body { c with current_command := o }).2.1 = (process_body c).2.1 ∧
    (process_body { c with current_command := o }).2.2.2 = (process_body c).2.2.2 ∧
    print_command_status (process_body { c with current_command := o }).2.2.1
        (process_body { c with current_command := o }).1
        (process_body { c with current_command := o }).2.1
      = print_command_status (process_body c).2.2.1 (process_body c).1
          (process_body c).2.1 := by
  dsimp only [process_body]
  by_cases hAT : c.rx_buffer.getD 0 '\x00' = 'A' ∧ c.rx_buffer.getD 1 '\x00' = 'T'
  · rw [if_pos hAT, if_pos hAT]
    by_cases h0 : c.rx_buffer.getD 2 '\x00' = '\x00'
    · rw [if_pos h0, if_pos h0]; exact ⟨rfl, rfl, rfl, rfl⟩
    · rw [if_neg h0, if_neg h0]
      by_cases hq : c.rx_buffer.getD 2 '\x00' = '?'
      · rw [if_pos hq, if_pos hq]
        by_cases h3 : c.rx_buffer.getD 3 '\x00' = '\x00'
        · rw [if_pos h3, if_pos h3]; exact ⟨rfl, rfl, rfl, rfl⟩
        · rw [if_neg h3, if_neg h3]; exact ⟨rfl, rfl, rfl, rfl⟩
      · rw [if_neg hq, if_neg hq]
        by_cases hd : c.rx_buffer.getD 2 '\x00' = '$'
        · rw [if_pos hd, if_pos hd]; exact ⟨rfl, rfl, rfl, rfl⟩
        · rw [if_neg hd, if_neg hd]
          by_cases hb : c.rx_buffer.getD 2 '\x00' = '!'
          · rw [if_pos hb, if_pos hb]; exact ⟨rfl, rfl, rfl, rfl⟩
          · rw [if_neg hb, if_neg hb]; exact ⟨rfl, rfl, rfl, rfl⟩
  · rw [if_neg hAT, if_neg hAT]; exact ⟨rfl, rfl, rfl, rfl⟩

theorem at_process_go_cc (c : Ctx) (o : Option Nat) :
    (at_process_go { c with current_command := o }).1 = (at_process_go c).1 ∧
    (at_process_go { c with current_command := o }).2.2 = (at_process_go c).2.2 := by
  obtain ⟨h1, h2, h3, h4⟩ := process_body_cc c o
  constructor
  · exact h1
  · dsimp only [at_process_go]
    rw [h4, h3, print_line_cc c o]

theorem tokenize_fuel_eq (n : Nat) : ∀ (s : List Char) (f1 f2 : Nat),
    s.length ≤ n → s.length ≤ f1 → s.length ≤ f2 →
    tokenize_fuel f1 s = tokenize_fuel f2 s := by
  induction n with
  | zero =>
    intro s f1 f2 h0 h1 h2
    have hs : s = [] := List.length_eq_zero.mp (Nat.le_zero.mp h0)
    subst hs
    cases f1 <;> cases f2 <;> rfl
  | succ n ih =>
    intro s f1 f2 h0 h1 h2
    cases s with
    | nil => cases f1 <;> cases f2 <;> rfl
    | cons c rest =>
      simp only [List.length_cons] at h0 h1 h2
      obtain ⟨g1, rfl⟩ : ∃ g1, f1 = g1 + 1 := ⟨f1 - 1, by omega⟩
      obtain ⟨g2, rfl⟩ : ∃ g2, f2 = g2 + 1 := ⟨f2 - 1, by omega⟩
      simp only [tokenize_fuel]
      by_cases hc : c = ','
      · rw [if_pos hc, if_pos hc, ih rest g1 g2 (by omega) (by omega) (by omega)]
      · rw [if_neg hc, if_neg hc]
        cases hdrop : (c :: rest).dropWhile (fun x => x ≠ ',') with
        | nil => rfl
        | cons x r2 =>
          have hlen := congrArg List.length
            (List.takeWhile_append_dropWhile (fun x => x ≠ ',') (c :: rest))
          rw [hdrop] at hlen
          simp only [List.length_append, List.length_cons] at hlen
          dsimp only
          rw [ih r2 g1 g2 (by omega) (by omega) (by omega)]

theorem tokenize_cons_sep (b : List Char) : tokenize (',' :: b) = none :: tokenize b := by
  simp [tokenize, tokenize_fuel]

theorem takeWhile_no_sep (a : List Char) (h : ',' ∉ a) :
    ∀ b : List Char, (a ++ ',' :: b).takeWhile (fun x => x ≠ ',') = a := by
  induction a with
  | nil => intro b; rw [List.nil_append, List.takeWhile_cons_of_neg (by simp)]
  | cons x t ih =>
    intro b
    have hx : x ≠ ',' := fun hh => h (hh ▸ List.mem_cons_self x t)
    have ht : ',' ∉ t := fun hh => h (List.mem_cons_of_mem x hh)
    rw [List.cons_append, List.takeWhile_cons_of_pos (by simp [hx]), ih ht b]

theorem dropWhile_no_sep (a : List Char) (h : ',' ∉ a) :
    ∀ b : List Char, (a ++ ',' :: b).dropWhile (fun x => x ≠ ',') = ',' :: b := by
  induction a with
  | nil => intro b; rw [List.nil_append, List.dropWhile_cons_of_neg (by simp)]
  | cons x t ih =>
    intro b
    have hx : x ≠ ',' := fun hh => h (hh ▸ List.mem_cons_self x t)
    have ht : ',' ∉ t := fun hh => h (List.mem_cons_of_mem x hh)
    rw [List.cons_append, List.dropWhile_cons_of_pos (by simp [hx]), ih ht b]

theorem takeWhile_no_sep_all (a : List Char) (h : ',' ∉ a) :
    a.takeWhile (fun x => x ≠ ',') = a := by
  induction a with
  | nil => rfl
  | cons x t ih =>
    have hx : x ≠ ',' := fun hh => h (hh ▸ List.mem_cons_self x t)
    have ht : ',' ∉ t := fun hh => h (List.mem_cons_of_mem x hh)
    rw [List.takeWhile_cons_of_pos (by simp [hx]), ih ht]

theorem dropWhile_no_sep_all (a : List Char) (h : ',' ∉ a) :
    a.dropWhile (fun x => x ≠ ',') = [] := by
  induction a with
  | nil => rfl
  | cons x t ih =>
    have hx : x ≠ ',' := fun hh => h (hh ▸ List.mem_cons_self x t)
    have ht : ',' ∉ t := fun hh => h (List.mem_cons_of_mem x hh)
    rw [List.dropWhile_cons_of_pos (by simp [hx]), ih ht]

theorem tokenize_cons_tok (c : Char) (rest : List Char) (hc : ¬ c = ',') :
    tokenize (c :: rest) =
      some ((c :: rest).takeWhile (fun x => x ≠ ',')) ::
        (match (c :: rest).dropWhile (fun x => x ≠ ',') with
         | [] => []
         | _ :: r2 => tokenize r2) := by
  simp only [tokenize, List.length_cons, tokenize_fuel, if_neg hc]
  cases hdrop : (c :: rest).dropWhile (fun x => x ≠ ',') with
  | nil => rfl
  | cons x r2 =>
    dsimp only
    have hlen := congrArg List.length
      (List.takeWhile_append_dropWhile (fun x => x ≠ ',') (c :: rest))
    rw [hdrop] at hlen
    simp only [List.length_append, List.length_cons] at hlen
    rw [tokenize_fuel_eq rest.length r2 rest.length r2.length
      (by omega) (by omega) (by omega)]

theorem tokenize_token (a b : List Char) (ha : ',' ∉ a) (hne : a ≠ []) :
    tokenize (a ++ ',' :: b) = some a :: tokenize b := by
  obtain ⟨c, t, rfl⟩ := List.exists_cons_of_ne_nil hne
  have hc : ¬ c = ',' := fun hh => ha (hh ▸ List.mem_cons_self c t)
  have h1 := takeWhile_no_sep (c :: t) ha b
  have h2 := dropWhile_no_sep (c :: t) ha b
  rw [List.cons_append] at h1 h2 ⊢
  rw [tokenize_cons_tok c (t ++ ',' :: b) hc, h1, h2]

theorem tokenize_last_token (a : List Char) (ha : ',' ∉ a) (hne : a ≠ []) :
    tokenize a = [some a] := by
  obtain ⟨c, t, rfl⟩ := List.exists_cons_of_ne_nil hne
  have hc : ¬ c = ',' := fun hh => ha (hh ▸ List.mem_cons_self c t)
  rw [tokenize_cons_tok c t hc, takeWhile_no_sep_all (c :: t) ha,
    dropWhile_no_sep_all (c :: t) ha]

theorem run_callback_quiet_pair (ctx : Ctx) (r : CbResult)
    (h : ctx.flags.quiet = 1) (hr : result_keeps_quiet r) :
    (run_callback ctx r).2.2.1.flags.quiet = 1 ∧ (run_callback ctx r).2.2.2 = [] :=
  apply_effects_quiet r.2.2 ctx h hr

theorem parse_quiet (ctx : Ctx) (input : List Char) (ty : Nat)
    (hq : ctx.flags.quiet = 1) (hcb : callbacks_keep_quiet ctx) :
    (parse_and_execute_command ctx input ty).2.2.1.flags.quiet = 1 ∧
    (parse_and_execute_command ctx input ty).2.2.2 = [] := by
  unfold parse_and_execute_command
  cases hscan : scan_list ctx.env input ty ctx.commands_list with
  | none => exact ⟨hq, rfl⟩
  | some cid =>
    have hmem := scan_list_mem ctx.env input ty cid ctx.commands_list hscan
    obtain ⟨hex, hrd, hwr⟩ := hcb cid hmem
    dsimp only
    split_ifs <;>
      first
      | exact ⟨hq, rfl⟩
      | (cases hcbe : (ctx.env cid).execution_callback with
         | none => exact ⟨hq, rfl⟩
         | some cb => exact run_callback_quiet_pair _ _ hq (hex cb _ hcbe))
      | (cases hcbe : (ctx.env cid).read_callback with
         | none => exact ⟨hq, rfl⟩
         | some cb => exact run_callback_quiet_pair _ _ hq (hrd cb _ hcbe))
      | (cases hcbe : (ctx.env cid).write_callback with
         | none => exact ⟨hq, rfl⟩
         | some cb => exact run_callback_quiet_pair _ _ hq (hwr cb _ _ _ hcbe))

theorem process_body_quiet (c : Ctx) (hq : c.flags.quiet = 1)
    (hcb : callbacks_keep_quiet c) :
    (process_body c).2.2.1.flags.quiet = 1 ∧ (process_body c).2.2.2 = [] := by
  unfold process_body
  split_ifs <;>
    first
    | exact ⟨hq, rfl⟩
    | exact ⟨hq, full_help_quiet c hq⟩
    | exact parse_quiet c _ _ hq hcb

theorem out_bytes_pcs_quiet (ctx : Ctx) (st : AT_status) (code : Int)
    (h : ctx.flags.quiet = 1) : out_bytes (print_command_status ctx st code) = [] := by
  unfold print_command_status
  split_ifs <;>
    simp [out_bytes, print_tab_quiet _ _ _ h, print_str_quiet _ _ h, end_line_quiet _ h]

theorem scan_list_eq_find (env : Nat → Cmd) (input : List Char) (ty : Nat) :
    ∀ l : List (Option Nat),
      scan_list env input ty l = Option.join (l.find? (matches_spec env input ty)) := by
  intro l
  induction l with
  | nil => rfl
  | cons slot rest ih =>
    cases slot with
    | none =>
      rw [scan_list, List.find?_cons_of_neg _ (by simp [matches_spec])]
      exact ih
    | some cid =>
      by_cases h1 : (env cid).ty = ty
      · by_cases h2 : (env cid).syn.isPrefixOf input
        · rw [scan_list, if_neg (by simp [h1]), if_pos h2,
            List.find?_cons_of_pos _ (by simp [matches_spec, h1, h2])]
          rfl
        · rw [scan_list, if_neg (by simp [h1]), if_neg h2,
            List.find?_cons_of_neg _ (by simp [matches_spec, h1, h2])]
          exact ih
      · rw [scan_list, if_pos (by simp [h1]),
          List.find?_cons_of_neg _ (by simp [matches_spec, h1])]
        exact ih

theorem unregister_loop_null (ctx : Ctx) :
    ∀ (l : List (Option Nat)) (i : Nat), none ∈ l →
      unregister_loop ctx none i l
        = .nullDeref (i + l.findIdx (fun s => s.isNone)) := by
  intro l
  induction l with
  | nil => intro i h; exact absurd h (List.not_mem_nil none)
  | cons slot rest ih =>
    intro i h
    cases slot with
    | none => simp [unregister_loop, List.findIdx_cons]
    | some a =>
      have hmem : none ∈ rest := by
        rcases List.mem_cons.mp h with h1 | h1
        · exact absurd h1.symm (by simp)
        · exact h1
      rw [unregister_loop, if_neg (by simp), ih (i + 1) hmem]
      simp [List.findIdx_cons]
      omega

theorem count_status_process_body (c : Ctx) :
    (process_body c).2.2.2.countP is_status_event = 0 := by
  unfold process_body
  split_ifs <;>
    first
    | rfl
    | exact count_status_full_help c
    | exact count_status_parse c _ _

theorem at_process_cc (ctx : Ctx) (o : Option Nat) :
    (AT_process { ctx with current_command := o }).1 = (AT_process ctx).1 ∧
    (AT_process { ctx with current_command := o }).2.2 = (AT_process ctx).2.2 := by
  by_cases hp : ctx.flags.process = 0
  · constructor <;> simp [AT_process, hp]
  · have hgo := at_process_go_cc { ctx with flags := { ctx.flags with process := 0 } } o
    constructor
    · simp only [AT_process]
      rw [if_neg hp]
      rw [if_neg (show ¬({ ctx with current_command := o } : Ctx).flags.process = 0 from hp)]
      exact hgo.1
    · simp only [AT_process]
      rw [if_neg hp]
      rw [if_neg (show ¬({ ctx with current_command := o } : Ctx).flags.process = 0 from hp)]
      exact hgo.2

end ATSpec

namespace ATSpec

/-! ## Claim theorems -/

/-- C1: the claim says registering a valid, unregistered descriptor into a
full registry returns `ListFull` with the registry unchanged.  The registry is
indeed unchanged, but the code returns `AT_SUCCESS`: `AT_register_command`
ends with an unconditional `return AT_SUCCESS;`, so the local status that was
initialized to `AT_ERROR_COMMANDS_LIST_FULL` (and is the function's evident
intent) can never be returned.  Evaluation at a full registry and a fresh
valid descriptor (pointer 100, not among the registered pointers 0..63). -/
theorem c1_register_into_full_registry_returns_success :
    (∀ s ∈ ctx_full.commands_list, s ≠ none) ∧
    AT_register_command ctx_full (some 100) = (.SUCCESS, ctx_full) := by
  constructor
  · decide
  · rfl

/-- C2: whenever the process-requested flag is set, one `AT_process` call
emits exactly one status line through the formatter (one `statusLine` event in
the trace, whatever the dispatch outcome), clears the pending flag, zeroes the
whole line buffer, and resets the fill length to zero. -/
theorem c2_process_completes_line_cycle (ctx : Ctx) (hp : ctx.flags.process = 1) :
    (AT_process ctx).2.2.countP is_status_event = 1 ∧
    (AT_process ctx).2.1.flags.pending = 0 ∧
    (AT_process ctx).2.1.rx_buffer = List.replicate AT_BUFFER_SIZE '\x00' ∧
    (AT_process ctx).2.1.rx_buffer_size = 0 := by
  have hp0 : ¬ ctx.flags.process = 0 := by rw [hp]; norm_num
  simp only [AT_process]
  rw [if_neg hp0]
  refine ⟨?_, rfl, rfl, rfl⟩
  show (at_process_go _).2.2.countP is_status_event = 1
  dsimp only [at_process_go]
  rw [List.countP_append, List.countP_append, count_status_pcs,
    count_status_process_body]
  split_ifs
  · rw [count_status_print_line]
  · rfl

/-- C2 witness: a concrete processing-requested state (built-ins registered,
line `ATE1` pending). -/
theorem c2_witness :
    (mkCtx ⟨1, 1, 0, 1, 0⟩ "ATE1".data).flags.process = 1 ∧
    ((AT_process (mkCtx ⟨1, 1, 0, 1, 0⟩ "ATE1".data)).2.2.countP is_status_event = 1 ∧
     (AT_process (mkCtx ⟨1, 1, 0, 1, 0⟩ "ATE1".data)).2.1.flags.pending = 0 ∧
     (AT_process (mkCtx ⟨1, 1, 0, 1, 0⟩ "ATE1".data)).2.1.rx_buffer
       = List.replicate AT_BUFFER_SIZE '\x00' ∧
     (AT_process (mkCtx ⟨1, 1, 0, 1, 0⟩ "ATE1".data)).2.1.rx_buffer_size = 0) :=
  ⟨rfl, c2_process_completes_line_cycle _ rfl⟩

/-- C7: while the pending flag is set, the ingest callback drops every byte
(including the `'\r'` terminator): the context — buffer, fill length, all
flags — is unchanged and no notification is raised. -/
theorem c7_pending_drops_every_byte (ctx : Ctx) (data : Char)
    (h : ctx.flags.pending = 1) : rx_irq_callback data ctx = (ctx, false) := by
  simp [rx_irq_callback, h]

/-- C7 witness: a pending context dropping the terminator byte itself. -/
theorem c7_witness :
    (mkCtx ⟨0, 1, 0, 0, 0⟩ "AT".data).flags.pending = 1 ∧
    rx_irq_callback '\r' (mkCtx ⟨0, 1, 0, 0, 0⟩ "AT".data)
      = (mkCtx ⟨0, 1, 0, 0, 0⟩ "AT".data, false) :=
  ⟨rfl, c7_pending_drops_every_byte _ '\r' rfl⟩

/-- C9: `AT_unregister_command` has no null check: on a registry with at
least one free slot, unregistering a null descriptor matches the first free
(null) slot — the loop compares raw pointers — and then dereferences the null
pointer for the per-kind count decrement (`command->type`), modelled by the
`nullDeref` outcome; it does not return `NotRegistered` or a null-parameter
error (those would be `ok` outcomes, a different constructor). -/
theorem c9_unregister_null_dereferences (ctx : Ctx)
    (h : none ∈ ctx.commands_list) :
    AT_unregister_command ctx none
      = .nullDeref (ctx.commands_list.findIdx (fun s => s.isNone)) := by
  have hl := unregister_loop_null ctx ctx.commands_list 0 h
  simpa [AT_unregister_command] using hl

/-- C9 witness: with the three built-ins registered, the first free slot is
index 3 and the null unregister reaches the null dereference there. -/
theorem c9_witness :
    AT_unregister_command (mkCtx ⟨0, 0, 0, 0, 0⟩ []) none = .nullDeref 3 := by
  rw [c9_unregister_null_dereferences (mkCtx ⟨0, 0, 0, 0, 0⟩ []) (by decide),
    show ((mkCtx ⟨0, 0, 0, 0, 0⟩ []).commands_list.findIdx (fun s => s.isNone)) = 3
      from by decide]

/-- C10: `_parse_bit` rejects only values strictly greater than 1.  A
negative argument passes the check: the parsed `int` is cast to `uint8_t`
(reduction mod 2^8), the E/V/Q write callbacks succeed with that value, and
storing it in the one-bit mode field keeps its low-order bit; concretely,
`ATE-1` yields status `OK` (success) and enables echo. -/
theorem c10_negative_mode_argument_accepted (s : List Char) (n : Int)
    (hp : sscanf_d s = some n) (hneg : n < 0) :
    parse_bit 1 [some s] = .ok ((n % 256).toNat) ∧
    (∀ fl, echo_write_callback 1 [some s] fl
      = (.SUCCESS, 0, [.setEcho ((n % 256).toNat)])) ∧
    (∀ fl, verbose_write_callback 1 [some s] fl
      = (.SUCCESS, 0, [.setVerbose ((n % 256).toNat)])) ∧
    (∀ fl, quiet_write_callback 1 [some s] fl
      = (.SUCCESS, 0, [.setQuiet ((n % 256).toNat)])) ∧
    (∀ c : Ctx, (apply_effect c (.setEcho ((n % 256).toNat))).1.flags.echo
      = (n % 256).toNat % 2) ∧
    ((AT_process (mkCtx ⟨1, 1, 0, 1, 0⟩ "ATE-1".data)).1 = .SUCCESS ∧
     (AT_process (mkCtx ⟨1, 1, 0, 1, 0⟩ "ATE-1".data)).2.1.flags.echo = 1 ∧
     out_bytes (AT_process (mkCtx ⟨1, 1, 0, 1, 0⟩ "ATE-1".data)).2.2
       = "OK".data ++ ['\r', '\n']) := by
  have hpb : parse_bit 1 [some s] = .ok ((n % 256).toNat) := by
    simp only [parse_bit, List.headD, hp]
    rw [if_neg (by norm_num), if_neg (by omega)]
  refine ⟨hpb, ?_, ?_, ?_, fun c => rfl, by decide⟩
  · intro fl; simp [echo_write_callback, hpb]
  · intro fl; simp [verbose_write_callback, hpb]
  · intro fl; simp [quiet_write_callback, hpb]

/-- C10 witness: the argument `-1` parses negatively and `_parse_bit` accepts
it as 255. -/
theorem c10_witness :
    parse_bit 1 [some "-1".data] = .ok (((-1 : Int) % 256).toNat) :=
  (c10_negative_mode_argument_accepted "-1".data (-1) (by decide) (by decide)).1

end ATSpec

namespace ATSpec

/-- C3 counterexample: the claim as stated is false.  In a quiet-mode state
(quiet flag set) the line `ATQ0` is dispatched to the quiet write callback,
which clears the quiet flag before the status line is printed — so bytes are
written to the transport even though the line was processed in a quiet
state. -/
theorem c3_counterexample :
    (mkCtx ⟨1, 1, 1, 0, 0⟩ "ATQ0".data).flags.quiet = 1 ∧
    out_bytes (AT_process (mkCtx ⟨1, 1, 1, 0, 0⟩ "ATQ0".data)).2.2 ≠ [] := by
  exact ⟨rfl, by decide⟩

/-- C3 (amended): if the quiet flag is set and no registered callback can
clear it, processing any input writes no bytes at all to the transport — the
echo line, every reply, every help line and the final status line are all
suppressed. -/
theorem c3_quiet_suppresses_all_output (ctx : Ctx)
    (hq : ctx.flags.quiet = 1) (hcb : callbacks_keep_quiet ctx) :
    out_bytes (AT_process ctx).2.2 = [] := by
  by_cases hp : ctx.flags.process = 0
  · simp [AT_process, hp, out_bytes]
  · simp only [AT_process]
    rw [if_neg hp]
    have hqA : ({ ctx with flags := { ctx.flags with process := 0 } } : Ctx).flags.quiet = 1 :=
      hq
    have hcbA : callbacks_keep_quiet { ctx with flags := { ctx.flags with process := 0 } } :=
      hcb
    obtain ⟨hq2, htr⟩ := process_body_quiet _ hqA hcbA
    dsimp only [at_process_go]
    rw [htr, out_bytes_append, out_bytes_append, out_bytes_pcs_quiet _ _ _ hq2]
    split_ifs with he
    · rw [print_line_quiet _ _ hqA]; rfl
    · rfl

/-- C3 witness: a quiet empty-registry context processing `AT`. -/
theorem c3_witness :
    ctx_empty_quiet.flags.quiet = 1 ∧
    out_bytes (AT_process ctx_empty_quiet).2.2 = [] := by
  refine ⟨rfl, c3_quiet_suppresses_all_output ctx_empty_quiet rfl ?_⟩
  intro cid hmem
  simp [ctx_empty_quiet, List.mem_replicate] at hmem

/-- C4: the dispatcher's registry scan selects exactly the first slot (in
slot/registration order, skipping empty slots and other kinds) whose syntax
is a byte-exact prefix of the line content — it equals the spec-side
first-match function — and when no descriptor of the kind matches, dispatch
returns `CommandNotFound` with no callback invoked (no events, context
untouched but for the current-command reset). -/
theorem c4_first_match_scan_and_not_found (ctx : Ctx) (input : List Char) (ty : Nat) :
    scan_list ctx.env input ty ctx.commands_list = dispatch_first_match ctx input ty ∧
    (dispatch_first_match ctx input ty = none →
      parse_and_execute_command ctx input ty
        = (.ERROR_INTERNAL_COMMAND_NOT_FOUND, 0,
           { ctx with current_command := none }, [])) := by
  have heq := scan_list_eq_find ctx.env input ty ctx.commands_list
  refine ⟨heq, fun hnone => ?_⟩
  have hn2 : Option.join (ctx.commands_list.find? (matches_spec ctx.env input ty))
      = none := hnone
  unfold parse_and_execute_command
  rw [heq, hn2]

/-- C4 witness: an Extended lookup (`AT$UNKNOWN`) against a registry holding
only Basic commands finds nothing and returns `CommandNotFound`. -/
theorem c4_witness :
    scan_list (mkCtx ⟨0, 0, 0, 1, 0⟩ []).env "UNKNOWN".data 1
        (mkCtx ⟨0, 0, 0, 1, 0⟩ []).commands_list
      = dispatch_first_match (mkCtx ⟨0, 0, 0, 1, 0⟩ []) "UNKNOWN".data 1 ∧
    parse_and_execute_command (mkCtx ⟨0, 0, 0, 1, 0⟩ []) "UNKNOWN".data 1
      = (.ERROR_INTERNAL_COMMAND_NOT_FOUND, 0,
         { (mkCtx ⟨0, 0, 0, 1, 0⟩ []) with current_command := none }, []) :=
  ⟨(c4_first_match_scan_and_not_found _ _ _).1,
   (c4_first_match_scan_and_not_found _ _ _).2 (by decide)⟩

/-- C5: once the scan matched a descriptor, the character immediately after
the matched prefix selects the call form: end-of-line (the buffer's `'\0'`
padding) invokes the execute callback or fails `ExecutionNotDefined`; `'?'`
invokes the read callback or fails `ReadNotDefined`; `'='` — or the kind
being Basic — invokes the write callback (or fails `WriteNotDefined`) on the
tokenization of everything after `'='` for Extended/Debug and everything
after the prefix for Basic; any other character fails `MarkerNotDefined`. -/
theorem c5_marker_selects_call_form (ctx : Ctx) (input : List Char) (ty : Nat)
    (cid : Nat)
    (hscan : scan_list ctx.env input ty ctx.commands_list = some cid) :
    (input.getD (ctx.env cid).syn.length '\x00' = '\x00' →
      ((ctx.env cid).execution_callback = none →
        parse_and_execute_command ctx input ty
          = (.ERROR_INTERNAL_COMMAND_EXECUTION_NOT_DEFINED, 0,
             { ctx with current_command := some cid }, [])) ∧
      (∀ cb, (ctx.env cid).execution_callback = some cb →
        parse_and_execute_command ctx input ty
          = run_callback { ctx with current_command := some cid } (cb ctx.flags))) ∧
    (input.getD (ctx.env cid).syn.length '\x00' ≠ '\x00' →
     input.getD (ctx.env cid).syn.length '\x00' = '?' →
      ((ctx.env cid).read_callback = none →
        parse_and_execute_command ctx input ty
          = (.ERROR_INTERNAL_COMMAND_READ_NOT_DEFINED, 0,
             { ctx with current_command := some cid }, [])) ∧
      (∀ cb, (ctx.env cid).read_callback = some cb →
        parse_and_execute_command ctx input ty
          = run_callback { ctx with current_command := some cid } (cb ctx.flags))) ∧
    (input.getD (ctx.env cid).syn.length '\x00' ≠ '\x00' →
     input.getD (ctx.env cid).syn.length '\x00' ≠ '?' →
     (input.getD (ctx.env cid).syn.length '\x00' = '=' ∨ ty = 0) →
      ((ctx.env cid).write_callback = none →
        parse_and_execute_command ctx input ty
          = (.ERROR_INTERNAL_COMMAND_WRITE_NOT_DEFINED, 0,
             { ctx with current_command := some cid }, [])) ∧
      (∀ cb, (ctx.env cid).write_callback = some cb →
        parse_and_execute_command ctx input ty
          = run_callback { ctx with current_command := some cid }
              (cb (tokenize (cstrOf (if ty = 0 then input.drop (ctx.env cid).syn.length
                     else input.drop ((ctx.env cid).syn.length + 1)))).length
                 (tokenize (cstrOf (if ty = 0 then input.drop (ctx.env cid).syn.length
                     else input.drop ((ctx.env cid).syn.length + 1))))
                 ctx.flags))) ∧
    (input.getD (ctx.env cid).syn.length '\x00' ≠ '\x00' →
     input.getD (ctx.env cid).syn.length '\x00' ≠ '?' →
     input.getD (ctx.env cid).syn.length '\x00' ≠ '=' → ty ≠ 0 →
      parse_and_execute_command ctx input ty
        = (.ERROR_INTERNAL_COMMAND_MARKER_NOT_DEFINED, 0,
           { ctx with current_command := some cid }, [])) := by
  unfold parse_and_execute_command
  rw [hscan]
  dsimp only
  refine ⟨fun hm => ?_, fun hm1 hm => ?_, fun hm1 hm2 hm => ?_, fun hm1 hm2 hm3 hty => ?_⟩
  · rw [if_pos hm]
    constructor
    · intro hnone; rw [hnone]
    · intro cb hcb; rw [hcb]
  · rw [if_neg hm1, if_pos hm]
    constructor
    · intro hnone; rw [hnone]
    · intro cb hcb; rw [hcb]
  · rw [if_neg hm1, if_neg hm2, if_pos hm]
    constructor
    · intro hnone; rw [hnone]
    · intro cb hcb; rw [hcb]
  · rw [if_neg hm1, if_neg hm2, if_neg (by tauto)]

/-- C5 witness: `E1` (Basic kind) matches the echo descriptor; the `'1'`
after the prefix with the Basic kind selects the write form on the
tokenization of everything after the prefix. -/
theorem c5_witness :
    parse_and_execute_command (mkCtx ⟨1, 1, 0, 1, 0⟩ "ATE1".data) "E1".data 0
      = run_callback
          { (mkCtx ⟨1, 1, 0, 1, 0⟩ "ATE1".data) with current_command := some 0 }
          (echo_write_callback
            (tokenize (cstrOf ("E1".data.drop 1))).length
            (tokenize (cstrOf ("E1".data.drop 1)))
            (mkCtx ⟨1, 1, 0, 1, 0⟩ "ATE1".data).flags) := by
  have h := (c5_marker_selects_call_form (mkCtx ⟨1, 1, 0, 1, 0⟩ "ATE1".data)
    "E1".data 0 0 (by decide)).2.2.1 (by decide) (by decide) (Or.inr rfl)
  exact h.2 echo_write_callback rfl

/-- C6: tokenization laws — a leading separator yields an explicit omitted
(NULL) slot; a token followed by a separator yields the token slot with the
rest tokenized after the consumed separator (so each further consecutive
separator again yields an omitted slot by the first law); a final token
yields its slot; and concretely `"1,,3"` yields exactly three slots:
`"1"`, omitted, `"3"`. -/
theorem c6_tokenizer_omitted_slots :
    (∀ b : List Char, tokenize (',' :: b) = none :: tokenize b) ∧
    (∀ a b : List Char, ',' ∉ a → a ≠ [] →
      tokenize (a ++ ',' :: b) = some a :: tokenize b) ∧
    (∀ a : List Char, ',' ∉ a → a ≠ [] → tokenize a = [some a]) ∧
    tokenize "1,,3".data = [some "1".data, none, some "3".data] :=
  ⟨tokenize_cons_sep, tokenize_token, tokenize_last_token, by decide⟩

/-- C6 witness: the laws applied at concrete strings. -/
theorem c6_witness :
    tokenize (',' :: "7".data) = none :: tokenize "7".data ∧
    tokenize ("1".data ++ ',' :: "3".data) = some "1".data :: tokenize "3".data ∧
    tokenize "9".data = [some "9".data] :=
  ⟨c6_tokenizer_omitted_slots.1 "7".data,
   c6_tokenizer_omitted_slots.2.1 "1".data "3".data (by decide) (by decide),
   c6_tokenizer_omitted_slots.2.2.1 "9".data (by decide) (by decide)⟩

end ATSpec

namespace ATSpec

/-- C8 counterexample: the claim as stated is false.  `ATE0` is a valid line
that mutates no registry state, yet with echo initially on the first run
echoes the line and then disables echo, so the second run (same line
re-ingested into the post-run state) produces different bytes
(`"ATE0\r\nOK\r\n"` vs `"OK\r\n"`). -/
theorem c8_counterexample :
    out_bytes (AT_process (mkCtx ⟨1, 1, 0, 1, 1⟩ "ATE0".data)).2.2 ≠
      out_bytes (AT_process (ingest_line
        (AT_process (mkCtx ⟨1, 1, 0, 1, 1⟩ "ATE0".data)).2.1 "ATE0\r".data)).2.2 := by
  decide

/-- C8 (amended): processing the same line twice — the second run starting
from the first run's post-state with the line re-ingested — produces
byte-identical output, assuming no dispatched command mutates registry state
or the persistent mode flags (echo/verbose/quiet): all callback effects are
replies. -/
theorem c8_idempotent_without_state_mutation (ctx : Ctx) (line : List Char)
    (hpend : ctx.flags.pending = 0)
    (hbuf : ctx.rx_buffer = zero_buffer) (hsize : ctx.rx_buffer_size = 0)
    (hlen : line.length ≤ 127) (hnul : '\x00' ∉ line) (hcr : '\r' ∉ line)
    (hcb : registry_only_replies ctx) :
    out_bytes (AT_process (ingest_line ctx (line ++ ['\r']))).2.2
      = out_bytes (AT_process (ingest_line
          (AT_process (ingest_line ctx (line ++ ['\r']))).2.1 (line ++ ['\r']))).2.2 := by
  have hR := ingest_ready ctx line hpend hbuf hsize hlen hnul hcr
  have hRproc : ¬ (ingest_line ctx (line ++ ['\r'])).flags.process = 0 := by
    rw [hR]; norm_num
  have hcbR : registry_only_replies (ingest_line ctx (line ++ ['\r'])) := by
    rw [hR]; exact hcb
  obtain ⟨o, hpost⟩ := at_process_post _ hRproc hcbR
  have hpend2 : (AT_process (ingest_line ctx (line ++ ['\r']))).2.1.flags.pending = 0 := by
    rw [hpost]
  have hbuf2 : (AT_process (ingest_line ctx (line ++ ['\r']))).2.1.rx_buffer
      = zero_buffer := by
    rw [hpost]
  have hsize2 : (AT_process (ingest_line ctx (line ++ ['\r']))).2.1.rx_buffer_size = 0 := by
    rw [hpost]
  have hR2 := ingest_ready _ line hpend2 hbuf2 hsize2 hlen hnul hcr
  have hX : ingest_line (AT_process (ingest_line ctx (line ++ ['\r']))).2.1 (line ++ ['\r'])
      = { ingest_line ctx (line ++ ['\r']) with current_command := o } := by
    rw [hR2, hpost, hR]
  rw [hX, (at_process_cc (ingest_line ctx (line ++ ['\r'])) o).2]

/-- C8 witness: the ping line `AT` processed twice from an idle
empty-registry context. -/
theorem c8_witness :
    out_bytes (AT_process (ingest_line ctx_empty_idle ("AT".data ++ ['\r']))).2.2
      = out_bytes (AT_process (ingest_line
          (AT_process (ingest_line ctx_empty_idle ("AT".data ++ ['\r']))).2.1
          ("AT".data ++ ['\r']))).2.2 :=
  c8_idempotent_without_state_mutation ctx_empty_idle "AT".data rfl rfl rfl
    (by decide) (by decide) (by decide)
    (by intro cid hmem; simp [ctx_empty_idle, List.mem_replicate] at hmem)

end ATSpec
